import Mathlib

/-!
Verification development for a small restaurant-ordering backend.

The repository contains one primary Express server (src/api/server.js) and
several near-duplicate revisions (src/unnamed/part_000 .. part_003).  The
business logic lives in four handlers:

  * POST /api/member/lookup        - member lookup / auto-creation
  * POST /api/order                - order creation with loyalty-point
                                     redemption and accrual
  * PATCH /api/orders/:id/status   - order status update
  * (part_003 variant) POST /api/order with server-side price recomputation
                                     and a takeout counter, and a PATCH
                                     handler without enum validation

JavaScript numbers that the handlers coerce with Number(x) || 0 are modelled
as Int arguments holding the already-coerced value; strings are Lean Strings;
absent-or-present request fields are Option values, with JS truthiness of a
string field modelled by the strTruthy predicate below (a string field is
truthy exactly when it is present and non-empty).  File persistence
(loadJson / saveJson) is modelled by explicit state passing of the in-memory
lists; an HTTP 400/404 response is an Except.error carrying the message the
handler sends.
-/

namespace OrderServer

/-- POINT_PER_AMOUNT from server.js line 39: spend this much to earn 1 point. -/
def POINT_PER_AMOUNT : Int := 100

/-- POINT_VALUE from server.js line 40: discount value of one point. -/
def POINT_VALUE : Int := 1

/-- VALID_STATUS from server.js lines 43-49. -/
def VALID_STATUS : List String :=
  ["PENDING_PAYMENT", "PAID", "COOKING", "READY", "DONE"]

/-- JS truthiness of an optional string request field: present and non-empty. -/
def strTruthy : Option String → Bool
  | none => false
  | some s => !(s == "")

/-- Menu catalog entry (the fields used by the order handlers). -/
structure MenuItem where
  id : Int
  name : String
  price : Int
  category : String
  image : String
  deriving Repr, DecidableEq, Inhabited

/-- Member record from members.json: phone-keyed loyalty account. -/
structure Member where
  phone : String
  name : String
  points : Int
  deriving Repr, DecidableEq, Inhabited

/-- Order line item as sent by the client (fields after Number coercion). -/
structure LineItem where
  itemId : Int
  name : String
  basePrice : Int
  extraPricePerUnit : Int
  qty : Int
  removeKeys : List String
  addKeys : List String
  deriving Repr, DecidableEq, Inhabited

/-- Request body of POST /api/order in server.js (destructuring at lines
539-549).  totalAmount, usePoints and cashReceived hold the value of
Number(x) || 0. -/
structure OrderReq where
  items : List LineItem
  totalAmount : Int
  mode : Option String
  table : Option String
  memberPhone : Option String
  usePoints : Int
  via : Option String
  paymentMethod : Option String
  cashReceived : Int
  deriving Repr, DecidableEq, Inhabited

/-- Stored order record written to orders.json (server.js lines 622-640). -/
structure Order where
  orderId : String
  items : List LineItem
  mode : Option String
  table : Option String
  totalAmount : Int
  finalTotal : Int
  memberPhone : Option String
  usedPoints : Int
  earnedPoints : Int
  status : String
  createdAt : String
  ticketNo : Option String
  via : Option String
  paymentMethod : Option String
  cashReceived : Int
  deriving Repr, DecidableEq, Inhabited

/-- Member object in the order response (server.js lines 650-656). -/
structure MemberResp where
  phone : String
  beforePoints : Int
  usedPoints : Int
  earnedPoints : Int
  afterPoints : Int
  deriving Repr, DecidableEq, Inhabited

/-- Response body of POST /api/order (server.js lines 646-658). -/
structure OrderResp where
  orderId : String
  finalTotal : Int
  member : Option MemberResp
  deriving Repr, DecidableEq, Inhabited

/-- Full effect of one successful POST /api/order: the response together
with the post-state of members.json and orders.json. -/
structure OrderResult where
  resp : OrderResp
  order : Order
  members : List Member
  orders : List Order
  deriving Repr, DecidableEq, Inhabited

/-- Array.prototype.find over members by phone (server.js lines 509, 567). -/
def findMember (ms : List Member) (p : String) : Option Member :=
  ms.find? (fun m => m.phone == p)

/-- In-place mutation of the found member object, modelled as replacing the
first member whose phone matches. -/
def setFirstMember : List Member → String → Member → List Member
  | [], _, _ => []
  | m :: rest, p, m' =>
      if m.phone == p then m' :: rest else m :: setFirstMember rest p m'

/-- POST /api/member/lookup (server.js lines 501-519): look the phone up,
auto-create the member with zero points when absent, and return the stored
record. -/
def memberLookup (members : List Member) (phone : String) (name : Option String) :
    Except String (List Member × Member) :=
  if phone == "" then .error "缺少手機號碼"
  else
    match findMember members phone with
    | some m => .ok (members, m)
    | none =>
        let m : Member := { phone := phone, name := name.getD "", points := 0 }
        .ok (members ++ [m], m)

/-- Point accrual, server.js lines 591-594: earnedPoints is
Math.floor(finalTotal / POINT_PER_AMOUNT) when the post-redemption total is
strictly positive and 0 otherwise. -/
def earnedPointsOf (finalTotal : Int) : Int :=
  if 0 < finalTotal then Int.fdiv finalTotal POINT_PER_AMOUNT else 0

/-- Outcome of the member-settlement block of POST /api/order. -/
structure Settlement where
  beforePoints : Int
  usedPoints : Int
  finalTotal : Int
  earnedPoints : Int
  memberAfter : Member
  deriving Repr, DecidableEq, Inhabited

/-- Lines 574-598 of server.js for a resolved member object: cap the
requested redemption by the balance and by floor(total / POINT_VALUE),
subtract the redeemed value when positive, then accrue points on the
post-redemption total. -/
def settleMember (member0 : Member) (finalTotal0 wantUse : Int) : Settlement :=
  let beforePoints := member0.points
  let maxUsable := min member0.points (Int.fdiv finalTotal0 POINT_VALUE)
  let usedPoints := min wantUse maxUsable
  let finalTotal :=
    if 0 < usedPoints then finalTotal0 - usedPoints * POINT_VALUE else finalTotal0
  let pointsAfterUse :=
    if 0 < usedPoints then member0.points - usedPoints else member0.points
  let earnedPoints := earnedPointsOf finalTotal
  { beforePoints := beforePoints
    usedPoints := usedPoints
    finalTotal := finalTotal
    earnedPoints := earnedPoints
    memberAfter := { member0 with points := pointsAfterUse + earnedPoints } }

/-- Intermediate result of the member-handling section (server.js lines
560-599), covering both the member and the no-member path. -/
structure MemberSection where
  members : List Member
  finalTotal : Int
  usedPoints : Int
  earnedPoints : Int
  memberResp : Option MemberResp
  memberPhone : Option String
  deriving Repr, DecidableEq, Inhabited

/-- Member handling of POST /api/order, server.js lines 560-599: with a
truthy memberPhone, find or create the member, settle points and write the
updated member back; otherwise leave the store alone and still compute
earnedPoints from the unchanged total (the accrual is discarded because
there is no member to credit). -/
def handleMember (members0 : List Member) (mp : Option String)
    (finalTotal0 wantUse : Int) : MemberSection :=
  if strTruthy mp then
    let p := mp.getD ""
    let found := findMember members0 p
    let member0 : Member :=
      match found with
      | some m => m
      | none => { phone := p, name := "", points := 0 }
    let s := settleMember member0 finalTotal0 wantUse
    let members' :=
      match found with
      | some _ => setFirstMember members0 p s.memberAfter
      | none => members0 ++ [s.memberAfter]
    { members := members'
      finalTotal := s.finalTotal
      usedPoints := s.usedPoints
      earnedPoints := s.earnedPoints
      memberResp := some
        { phone := member0.phone
          beforePoints := s.beforePoints
          usedPoints := s.usedPoints
          earnedPoints := s.earnedPoints
          afterPoints := s.memberAfter.points }
      memberPhone := some member0.phone }
  else
    { members := members0
      finalTotal := finalTotal0
      usedPoints := 0
      earnedPoints := earnedPointsOf finalTotal0
      memberResp := none
      memberPhone := none }

/-- String.prototype.padStart(2, "0") applied to a decimal number. -/
def pad2 (n : Nat) : String :=
  if n < 10 then "0" ++ toString n else toString n

/-- generateTicketNo, server.js lines 529-535: hour and minute padded to two
digits followed by a random two-digit number.  rand stands for the draw
Math.floor(Math.random() * 90 + 10), a value in 10..99. -/
def generateTicketNo (hour minute rand : Nat) : String :=
  pad2 hour ++ pad2 minute ++ toString rand

/-- generateOrderId, server.js lines 524-526: "O" followed by Date.now(). -/
def generateOrderId (nowMs : Nat) : String :=
  "O" ++ toString nowMs

/-- Initial status computation, server.js lines 606-617: PAID for a cashier
order paid by CASH, CARD or LINEPAY, otherwise PENDING_PAYMENT. -/
def initialStatusOf (via paymentMethod : Option String) : String :=
  if via = some "CASHIER" ∧
      (paymentMethod = some "CASH" ∨ paymentMethod = some "CARD" ∨
        paymentMethod = some "LINEPAY")
  then "PAID" else "PENDING_PAYMENT"

/-- Normalization mode || null, via || null, paymentMethod || null used when
storing the order: a falsy string field is stored as null. -/
def orNull (o : Option String) : Option String :=
  if strTruthy o then o else none

/-- Body of POST /api/order after the item check (server.js lines 556-658),
assembled into the response, the stored order and the two post-states. -/
def buildOrderResult (members0 : List Member) (orders0 : List Order)
    (req : OrderReq) (tHour tMin rand : Nat) (createdAt : String)
    (nowMs : Nat) : OrderResult :=
  let originalTotal := req.totalAmount
  let hm := handleMember members0 req.memberPhone originalTotal req.usePoints
  let orderId := generateOrderId nowMs
  let ticketNo :=
    if req.mode = some "takeout" then some (generateTicketNo tHour tMin rand)
    else none
  let order : Order :=
    { orderId := orderId
      items := req.items
      mode := orNull req.mode
      table := if req.mode = some "dinein" then some (req.table.getD "") else none
      totalAmount := originalTotal
      finalTotal := hm.finalTotal
      memberPhone := hm.memberPhone
      usedPoints := hm.usedPoints
      earnedPoints := hm.earnedPoints
      status := initialStatusOf req.via req.paymentMethod
      createdAt := createdAt
      ticketNo := ticketNo
      via := orNull req.via
      paymentMethod := orNull req.paymentMethod
      cashReceived := req.cashReceived }
  { resp := { orderId := orderId, finalTotal := hm.finalTotal, member := hm.memberResp }
    order := order
    members := hm.members
    orders := orders0 ++ [order] }

/-- POST /api/order (server.js lines 538-659).  The clock and random draw of
the handler are passed explicitly: tHour and tMin feed generateTicketNo,
rand stands for the two-digit random draw, createdAt for the ISO timestamp
and nowMs for Date.now(). -/
def processOrder (members0 : List Member) (orders0 : List Order)
    (req : OrderReq) (tHour tMin rand : Nat) (createdAt : String)
    (nowMs : Nat) : Except String OrderResult :=
  if req.items.isEmpty then .error "沒有商品內容"
  else .ok (buildOrderResult members0 orders0 req tHour tMin rand createdAt nowMs)

/-- In-place status mutation of the found order, modelled as replacing the
first order whose orderId matches with the updated record. -/
def setOrderStatus : List Order → String → String → List Order
  | [], _, _ => []
  | o :: rest, oid, s =>
      if o.orderId == oid then { o with status := s } :: rest
      else o :: setOrderStatus rest oid s

/-- PATCH /api/orders/:orderId/status (server.js lines 682-704): reject a
missing status, reject a status outside VALID_STATUS, 404 an unknown order,
otherwise overwrite the status and return the updated order. -/
def patchStatus (orders : List Order) (orderId : String)
    (status : Option String) : Except String (List Order × Order) :=
  if !(strTruthy status) then .error "必須提供新的狀態"
  else
    let s := status.getD ""
    if s ∈ VALID_STATUS then
      match orders.find? (fun o => o.orderId == orderId) with
      | none => .error "找不到此訂單"
      | some o => .ok (setOrderStatus orders orderId s, { o with status := s })
    else .error "無效的訂單狀態"

end OrderServer

namespace Part003

open OrderServer (MenuItem LineItem VALID_STATUS pad2 strTruthy)

/-- Initial in-memory catalog menuData of the part_003 revision (lines
50-57). -/
def menuData : List MenuItem :=
  [ { id := 1, name := "牛肉麵", price := 150, category := "主食", image := "" },
    { id := 2, name := "陽春麵", price := 80, category := "主食", image := "" },
    { id := 3, name := "炸雞塊", price := 60, category := "小菜", image := "" },
    { id := 4, name := "滷蛋", price := 20, category := "小菜", image := "" },
    { id := 5, name := "珍珠奶茶", price := 60, category := "飲料", image := "" },
    { id := 6, name := "紅茶", price := 30, category := "飲料", image := "" } ]

/-- Request body of POST /api/order in the part_003 revision (line 174). -/
structure OrderReq3 where
  mode : Option String
  table : Option String
  items : List LineItem
  totalAmount : Int
  deriving Repr, DecidableEq, Inhabited

/-- Stored order item of the part_003 revision (lines 212-224): the base
price is re-read from the catalog when the itemId is known. -/
structure StoredItem3 where
  itemId : Int
  name : String
  basePrice : Int
  extraPricePerUnit : Int
  qty : Int
  removeKeys : List String
  addKeys : List String
  deriving Repr, DecidableEq, Inhabited

/-- Stored order of the part_003 revision (lines 207-228); updatedAt is set
only by the PATCH handler. -/
structure Order3 where
  orderId : String
  ticketNo : Option Int
  mode : String
  table : Option String
  items : List StoredItem3
  totalAmount : Int
  status : String
  createdAt : String
  updatedAt : Option String
  deriving Repr, DecidableEq, Inhabited

/-- Response of POST /api/order in the part_003 revision (lines 234-238). -/
structure OrderResp3 where
  orderId : String
  ticketNo : Option Int
  paymentUrl : String
  deriving Repr, DecidableEq, Inhabited

/-- serverCalcTotal, part_003 lines 184-193: re-price each line from the
catalog, adding the per-unit extra, and skip items whose itemId is not in
the catalog. -/
def serverCalcTotal (menu : List MenuItem) (items : List LineItem) : Int :=
  items.foldl
    (fun sum it =>
      match menu.find? (fun m => m.id == it.itemId) with
      | none => sum
      | some mi => sum + (mi.price + it.extraPricePerUnit) * it.qty)
    0

/-- generateOrderId of part_003 (lines 63-70): ORD, the date, and the last
five characters of the decimal form of Date.now(). -/
def generateOrderId3 (year month day nowMs : Nat) : String :=
  let t := toString nowMs
  "ORD" ++ toString year ++ pad2 month ++ pad2 day ++
    t.drop (t.length - 5)

/-- POST /api/order of the part_003 revision (lines 173-239): validate mode
and items, recompute the total from the catalog ignoring the submitted
totalAmount, reject a non-positive recomputed total, number takeout orders
by the count of stored takeout orders plus one, and append the order. -/
def createOrder3 (menu : List MenuItem) (orders : List Order3)
    (req : OrderReq3) (year month day nowMs : Nat) (createdAt : String) :
    Except String (List Order3 × Order3 × OrderResp3) :=
  if !(strTruthy req.mode) || req.items.isEmpty then .error "缺少必要欄位"
  else
    let mode := req.mode.getD ""
    if mode ≠ "dinein" ∧ mode ≠ "takeout" then
      .error "mode 必須是 dinein 或 takeout"
    else
      let serverCalc := serverCalcTotal menu req.items
      if serverCalc ≤ 0 then .error "金額異常，請重新下單"
      else
        let ticketNo : Option Int :=
          if mode = "takeout" then
            some ((orders.filter (fun o => o.mode == "takeout")).length + 1)
          else none
        let orderId := generateOrderId3 year month day nowMs
        let newOrder : Order3 :=
          { orderId := orderId
            ticketNo := ticketNo
            mode := mode
            table := if mode = "dinein" then some (req.table.getD "") else none
            items := req.items.map (fun it =>
              { itemId := it.itemId
                name := it.name
                basePrice :=
                  match menu.find? (fun m => m.id == it.itemId) with
                  | some mi => mi.price
                  | none => it.basePrice
                extraPricePerUnit := it.extraPricePerUnit
                qty := it.qty
                removeKeys := it.removeKeys
                addKeys := it.addKeys })
            totalAmount := serverCalc
            status := "PENDING_PAYMENT"
            createdAt := createdAt
            updatedAt := none }
        .ok (orders ++ [newOrder], newOrder,
          { orderId := orderId
            ticketNo := ticketNo
            paymentUrl := "https://example.com/mock-linepay?orderId=" ++ orderId })

/-- Replacement of the first order whose orderId matches, modelling the
in-place mutation of the PATCH handler. -/
def setOrder3 : List Order3 → String → Order3 → List Order3
  | [], _, _ => []
  | o :: rest, oid, o' =>
      if o.orderId == oid then o' :: rest else o :: setOrder3 rest oid o'

/-- PATCH /api/orders/:orderId/status of the part_003 revision (lines
251-268): reject only a missing status and store whatever status string was
sent; there is no VALID_STATUS check in this revision. -/
def patchStatus3 (orders : List Order3) (orderId : String)
    (status : Option String) (updatedAt : String) :
    Except String (List Order3 × Order3) :=
  if !(strTruthy status) then .error "缺少狀態欄位"
  else
    let s := status.getD ""
    match orders.find? (fun o => o.orderId == orderId) with
    | none => .error "找不到訂單"
    | some o =>
        let o' := { o with status := s, updatedAt := some updatedAt }
        .ok (setOrder3 orders orderId o', o')

end Part003

namespace OrderServer

/-- Modelled from the spec's words for the refinement comparison of the
order total: the sum over line items of the catalog price of the referenced
menu item times the item's quantity (an item absent from the catalog
contributes nothing). -/
def specCatalogTotal (menu : List MenuItem) (items : List LineItem) : Int :=
  items.foldl
    (fun sum it =>
      match menu.find? (fun m => m.id == it.itemId) with
      | none => sum
      | some mi => sum + mi.price * it.qty)
    0

/-! Helper lemmas shared by the claim theorems. -/

theorem processOrder_ok_elim {members0 : List Member} {orders0 : List Order}
    {req : OrderReq} {tHour tMin rand : Nat} {createdAt : String}
    {nowMs : Nat} {r : OrderResult}
    (hok : processOrder members0 orders0 req tHour tMin rand createdAt nowMs = .ok r) :
    req.items.isEmpty = false ∧
      r = buildOrderResult members0 orders0 req tHour tMin rand createdAt nowMs := by
  unfold processOrder at hok
  by_cases he : req.items.isEmpty
  · rw [if_pos he] at hok
    exact absurd hok (by simp)
  · rw [if_neg he] at hok
    refine ⟨by simpa using he, ?_⟩
    exact (Except.ok.injEq _ _ ▸ hok).symm

theorem findMember_phone {ms : List Member} {p : String} {m : Member}
    (h : findMember ms p = some m) : m.phone = p := by
  have := List.find?_some h
  exact eq_of_beq this

theorem mem_of_findMember {ms : List Member} {p : String} {m : Member}
    (h : findMember ms p = some m) : m ∈ ms :=
  List.mem_of_find?_eq_some h

theorem findMember_setFirstMember {ms : List Member} {p : String}
    {m0 : Member} (m' : Member)
    (hfind : findMember ms p = some m0) (hp : m'.phone = p) :
    findMember (setFirstMember ms p m') p = some m' := by
  induction ms with
  | nil => simp [findMember] at hfind
  | cons m rest ih =>
      by_cases hm : m.phone == p
      · simp only [setFirstMember, if_pos hm]
        simp [findMember, List.find?, hp]
      · simp only [setFirstMember, if_neg hm]
        have hfind' : findMember rest p = some m0 := by
          simpa [findMember, List.find?, hm] using hfind
        simpa [findMember, List.find?, hm] using ih hfind'

theorem findMember_append_new {ms : List Member} {p : String} (m' : Member)
    (hfind : findMember ms p = none) (hp : m'.phone = p) :
    findMember (ms ++ [m']) p = some m' := by
  induction ms with
  | nil => simp [findMember, List.find?, hp]
  | cons m rest ih =>
      by_cases hm : m.phone == p
      · simp [findMember, List.find?, hm] at hfind
      · have hfind' : findMember rest p = none := by
          simpa [findMember, List.find?, hm] using hfind
        simpa [findMember, List.find?, hm] using ih hfind'

theorem mem_setFirstMember {ms : List Member} {p : String} {m' x : Member}
    (h : x ∈ setFirstMember ms p m') : x = m' ∨ x ∈ ms := by
  induction ms with
  | nil => simp [setFirstMember] at h
  | cons m rest ih =>
      by_cases hm : m.phone == p
      · simp only [setFirstMember, if_pos hm] at h
        rcases List.mem_cons.mp h with h | h
        · exact Or.inl h
        · exact Or.inr (List.mem_cons_of_mem _ h)
      · simp only [setFirstMember, if_neg hm] at h
        rcases List.mem_cons.mp h with h | h
        · exact Or.inr (h ▸ List.mem_cons_self _ _)
        · rcases ih h with h | h
          · exact Or.inl h
          · exact Or.inr (List.mem_cons_of_mem _ h)

theorem mem_setOrderStatus {os : List Order} {oid s : String} {x : Order}
    (h : x ∈ setOrderStatus os oid s) : x.status = s ∨ x ∈ os := by
  induction os with
  | nil => simp [setOrderStatus] at h
  | cons o rest ih =>
      by_cases ho : o.orderId == oid
      · simp only [setOrderStatus, if_pos ho] at h
        rcases List.mem_cons.mp h with h | h
        · subst h; exact Or.inl rfl
        · exact Or.inr (List.mem_cons_of_mem _ h)
      · simp only [setOrderStatus, if_neg ho] at h
        rcases List.mem_cons.mp h with h | h
        · exact Or.inr (h ▸ List.mem_cons_self _ _)
        · rcases ih h with h | h
          · exact Or.inl h
          · exact Or.inr (List.mem_cons_of_mem _ h)

theorem earnedPointsOf_nonneg (ft : Int) : 0 ≤ earnedPointsOf ft := by
  unfold earnedPointsOf
  by_cases h : 0 < ft
  · rw [if_pos h]
    exact Int.fdiv_nonneg (le_of_lt h) (by norm_num [POINT_PER_AMOUNT])
  · rw [if_neg h]

/-- Point balance of the member record stored under a phone number, zero
when the phone is unknown (matching the balance of the freshly created
member object). -/
def memberPointsOf (ms : List Member) (p : String) : Int :=
  match findMember ms p with
  | some m => m.points
  | none => 0

theorem handleMember_not_truthy (ms : List Member) (mp : Option String)
    (ft wu : Int) (h : strTruthy mp = false) :
    handleMember ms mp ft wu =
      { members := ms, finalTotal := ft, usedPoints := 0,
        earnedPoints := earnedPointsOf ft, memberResp := none,
        memberPhone := none } := by
  simp [handleMember, h]

theorem handleMember_found (ms : List Member) (ft wu : Int) (p : String)
    (hp : p ≠ "") (m0 : Member) (hfm : findMember ms p = some m0) :
    handleMember ms (some p) ft wu =
      { members := setFirstMember ms p (settleMember m0 ft wu).memberAfter
        finalTotal := (settleMember m0 ft wu).finalTotal
        usedPoints := (settleMember m0 ft wu).usedPoints
        earnedPoints := (settleMember m0 ft wu).earnedPoints
        memberResp := some
          { phone := m0.phone
            beforePoints := (settleMember m0 ft wu).beforePoints
            usedPoints := (settleMember m0 ft wu).usedPoints
            earnedPoints := (settleMember m0 ft wu).earnedPoints
            afterPoints := (settleMember m0 ft wu).memberAfter.points }
        memberPhone := some m0.phone } := by
  simp [handleMember, strTruthy, hp, hfm]

theorem handleMember_new (ms : List Member) (ft wu : Int) (p : String)
    (hp : p ≠ "") (hfm : findMember ms p = none) :
    handleMember ms (some p) ft wu =
      { members := ms ++ [(settleMember { phone := p, name := "", points := 0 } ft wu).memberAfter]
        finalTotal := (settleMember { phone := p, name := "", points := 0 } ft wu).finalTotal
        usedPoints := (settleMember { phone := p, name := "", points := 0 } ft wu).usedPoints
        earnedPoints := (settleMember { phone := p, name := "", points := 0 } ft wu).earnedPoints
        memberResp := some
          { phone := p
            beforePoints := (settleMember { phone := p, name := "", points := 0 } ft wu).beforePoints
            usedPoints := (settleMember { phone := p, name := "", points := 0 } ft wu).usedPoints
            earnedPoints := (settleMember { phone := p, name := "", points := 0 } ft wu).earnedPoints
            afterPoints := (settleMember { phone := p, name := "", points := 0 } ft wu).memberAfter.points }
        memberPhone := some p } := by
  simp [handleMember, strTruthy, hp, hfm]

theorem settleMember_usedPoints (m0 : Member) (ft wu : Int) :
    (settleMember m0 ft wu).usedPoints =
      min wu (min m0.points (Int.fdiv ft POINT_VALUE)) := rfl

theorem settleMember_finalTotal (m0 : Member) (ft wu : Int) :
    (settleMember m0 ft wu).finalTotal =
      (if 0 < (settleMember m0 ft wu).usedPoints
       then ft - (settleMember m0 ft wu).usedPoints * POINT_VALUE else ft) := rfl

theorem settleMember_earnedPoints (m0 : Member) (ft wu : Int) :
    (settleMember m0 ft wu).earnedPoints =
      earnedPointsOf (settleMember m0 ft wu).finalTotal := rfl

theorem settleMember_beforePoints (m0 : Member) (ft wu : Int) :
    (settleMember m0 ft wu).beforePoints = m0.points := rfl

theorem settleMember_afterPoints (m0 : Member) (ft wu : Int) :
    (settleMember m0 ft wu).memberAfter.points =
      (if 0 < (settleMember m0 ft wu).usedPoints
       then m0.points - (settleMember m0 ft wu).usedPoints else m0.points) +
        (settleMember m0 ft wu).earnedPoints := rfl

theorem settleMember_afterPhone (m0 : Member) (ft wu : Int) :
    (settleMember m0 ft wu).memberAfter.phone = m0.phone := rfl

/-! Claim theorems. -/

/-- C10: for every POST /api/order request whose memberPhone is absent or
empty, the members store is not modified, the response's member field is
null, usedPoints is 0, and the final total equals the original total. -/
theorem order_without_member_frame (members0 : List Member)
    (orders0 : List Order) (req : OrderReq) (tHour tMin rand : Nat)
    (createdAt : String) (nowMs : Nat) (r : OrderResult)
    (hmp : strTruthy req.memberPhone = false)
    (hok : processOrder members0 orders0 req tHour tMin rand createdAt nowMs = .ok r) :
    r.members = members0 ∧ r.resp.member = none ∧ r.order.usedPoints = 0 ∧
      r.order.finalTotal = r.order.totalAmount ∧
      r.resp.finalTotal = req.totalAmount := by
  obtain ⟨-, rfl⟩ := processOrder_ok_elim hok
  simp only [buildOrderResult]
  rw [handleMember_not_truthy _ _ _ _ hmp]
  exact ⟨rfl, rfl, rfl, rfl, rfl⟩

/-- Concrete instantiation of order_without_member_frame: a one-item dine-in
order with no memberPhone. -/
def c10req : OrderReq :=
  { items := [{ itemId := 1, name := "牛肉麵", basePrice := 150,
                extraPricePerUnit := 0, qty := 1, removeKeys := [], addKeys := [] }]
    totalAmount := 150, mode := some "dinein", table := some "A1",
    memberPhone := none, usePoints := 0, via := none, paymentMethod := none,
    cashReceived := 0 }

/-- Stored member used by several concrete instantiations. -/
def mem0912 : Member := { phone := "0912", name := "", points := 5 }

/-- Result of the concrete no-member order of c10req. -/
def c10res : OrderResult := buildOrderResult [mem0912] [] c10req 12 30 45 "t" 99

theorem order_without_member_frame_witness :
    c10res.members = [mem0912] ∧ c10res.resp.member = none ∧
      c10res.order.usedPoints = 0 ∧
      c10res.order.finalTotal = c10res.order.totalAmount ∧
      c10res.resp.finalTotal = c10req.totalAmount :=
  order_without_member_frame [mem0912] [] c10req 12 30 45 "t" 99 c10res rfl rfl

/-- C2: for every order-creation request carrying a memberPhone, the
recorded usedPoints equals the minimum of the requested usePoints, the
member's current balance (0 for a freshly created member) and
Math.floor(orderTotal / POINT_VALUE). -/
theorem used_points_min_rule (members0 : List Member) (orders0 : List Order)
    (req : OrderReq) (tHour tMin rand : Nat) (createdAt : String)
    (nowMs : Nat) (r : OrderResult) (p : String)
    (hp : req.memberPhone = some p) (hpne : p ≠ "")
    (hok : processOrder members0 orders0 req tHour tMin rand createdAt nowMs = .ok r) :
    r.order.usedPoints =
      min req.usePoints
        (min (memberPointsOf members0 p)
          (Int.fdiv r.order.totalAmount POINT_VALUE)) := by
  obtain ⟨-, rfl⟩ := processOrder_ok_elim hok
  simp only [buildOrderResult, hp]
  cases hfm : findMember members0 p with
  | some m0 =>
      rw [handleMember_found _ _ _ _ hpne _ hfm]
      simp [settleMember_usedPoints, memberPointsOf, hfm]
  | none =>
      rw [handleMember_new _ _ _ _ hpne hfm]
      simp [settleMember_usedPoints, memberPointsOf, hfm]

/-- Concrete instantiation for used_points_min_rule: the stored member has 5
points, the client asks to redeem 3 on a 100-dollar order. -/
def c2req : OrderReq :=
  { items := [{ itemId := 2, name := "陽春麵", basePrice := 80,
                extraPricePerUnit := 0, qty := 1, removeKeys := [], addKeys := [] }]
    totalAmount := 100, mode := some "takeout", table := none,
    memberPhone := some "0912", usePoints := 3, via := none,
    paymentMethod := none, cashReceived := 0 }

/-- Result of the concrete member order of c2req. -/
def c2res : OrderResult := buildOrderResult [mem0912] [] c2req 12 30 45 "t" 99

theorem used_points_min_rule_witness :
    c2res.order.usedPoints =
      min c2req.usePoints
        (min (memberPointsOf [mem0912] "0912")
          (Int.fdiv c2res.order.totalAmount POINT_VALUE)) :=
  used_points_min_rule [mem0912] [] c2req 12 30 45 "t" 99 c2res "0912" rfl
    (by decide) rfl

/-- C3: the earned points of every created order follow the guarded accrual
formula, and on every non-negative post-redemption total the guarded
formula agrees with the unconditional floor(finalTotal / POINT_PER_AMOUNT). -/
theorem earned_points_floor_rule (ft : Int) (hft : 0 ≤ ft) :
    earnedPointsOf ft = Int.fdiv ft POINT_PER_AMOUNT ∧
    ∀ (members0 : List Member) (orders0 : List Order) (req : OrderReq)
      (tHour tMin rand : Nat) (createdAt : String) (nowMs : Nat)
      (r : OrderResult),
      processOrder members0 orders0 req tHour tMin rand createdAt nowMs = .ok r →
      r.order.earnedPoints = earnedPointsOf r.order.finalTotal := by
  constructor
  · unfold earnedPointsOf
    by_cases h : 0 < ft
    · rw [if_pos h]
    · rw [if_neg h]
      have hz : ft = 0 := le_antisymm (not_lt.mp h) hft
      simp [hz, Int.zero_fdiv]
  · intro members0 orders0 req tHour tMin rand createdAt nowMs r hok
    obtain ⟨-, rfl⟩ := processOrder_ok_elim hok
    simp only [buildOrderResult]
    cases hmp : req.memberPhone with
    | none =>
        rw [handleMember_not_truthy _ _ _ _ (by simp [strTruthy])]
    | some p =>
        by_cases hpe : p = ""
        · rw [handleMember_not_truthy _ _ _ _ (by simp [strTruthy, hpe])]
        · cases hfm : findMember members0 p with
          | some m0 =>
              rw [handleMember_found _ _ _ _ hpe _ hfm]
              exact settleMember_earnedPoints _ _ _
          | none =>
              rw [handleMember_new _ _ _ _ hpe hfm]
              exact settleMember_earnedPoints _ _ _

theorem earned_points_floor_rule_witness :
    earnedPointsOf 250 = Int.fdiv 250 POINT_PER_AMOUNT :=
  (earned_points_floor_rule 250 (by decide)).1

/-- C6: for every stored order and every status value of the enum, the
PATCH handler succeeds and overwrites the status with the requested value
whatever the current status of the order is. -/
theorem status_transition_unconstrained (orders : List Order) (oid s : String)
    (o : Order) (hs : s ∈ VALID_STATUS)
    (hfind : orders.find? (fun x => x.orderId == oid) = some o) :
    patchStatus orders oid (some s) =
      .ok (setOrderStatus orders oid s, { o with status := s }) ∧
    ({ o with status := s } : Order).status = s := by
  have hne : s ≠ "" := by
    simp only [VALID_STATUS, List.mem_cons, List.not_mem_nil, or_false] at hs
    rcases hs with rfl | rfl | rfl | rfl | rfl <;> decide
  refine ⟨?_, rfl⟩
  simp [patchStatus, strTruthy, hne, hs, hfind]

/-- Stored order used by the concrete status-update instantiations. -/
def doneOrder : Order :=
  { orderId := "O1", items := [], mode := some "takeout", table := none,
    totalAmount := 100, finalTotal := 100, memberPhone := none,
    usedPoints := 0, earnedPoints := 1, status := "DONE", createdAt := "t",
    ticketNo := some "123045", via := none, paymentMethod := none,
    cashReceived := 0 }

theorem status_transition_unconstrained_witness :
    patchStatus [doneOrder] "O1" (some "PENDING_PAYMENT") =
      .ok (setOrderStatus [doneOrder] "O1" "PENDING_PAYMENT",
           { doneOrder with status := "PENDING_PAYMENT" }) :=
  (status_transition_unconstrained [doneOrder] "O1" "PENDING_PAYMENT"
    doneOrder (by decide) rfl).1

/-- C9: member lookup creates {phone, name or empty, points 0} on the first
call for an unknown phone, returns the stored record untouched on every
later call (a later name is ignored and the balance is never modified), and
is therefore idempotent on the members store. -/
theorem member_lookup_idempotent (ms : List Member) (phone : String)
    (n1 n2 : Option String) (hp : phone ≠ "") :
    (findMember ms phone = none →
      memberLookup ms phone n1 =
        .ok (ms ++ [{ phone := phone, name := n1.getD "", points := 0 }],
             { phone := phone, name := n1.getD "", points := 0 })) ∧
    (∀ m, findMember ms phone = some m →
      memberLookup ms phone n2 = .ok (ms, m)) ∧
    (∀ ms' m', memberLookup ms phone n1 = .ok (ms', m') →
      memberLookup ms' phone n2 = .ok (ms', m')) := by
  have hguard : (phone == "") = false := by
    simp [hp]
  refine ⟨?_, ?_, ?_⟩
  · intro hnone
    simp [memberLookup, hguard, hnone]
  · intro m hm
    simp [memberLookup, hguard, hm]
  · intro ms' m' h1
    unfold memberLookup at h1
    rw [if_neg (by simp [hp])] at h1
    cases hfm : findMember ms phone with
    | some m =>
        rw [hfm] at h1
        simp only [Except.ok.injEq, Prod.mk.injEq] at h1
        obtain ⟨rfl, rfl⟩ := h1
        simp [memberLookup, hguard, hfm]
    | none =>
        rw [hfm] at h1
        simp only [Except.ok.injEq, Prod.mk.injEq] at h1
        obtain ⟨rfl, rfl⟩ := h1
        have hfind' : findMember (ms ++ [{ phone := phone, name := n1.getD "", points := 0 }]) phone =
            some { phone := phone, name := n1.getD "", points := 0 } :=
          findMember_append_new _ hfm rfl
        simp [memberLookup, hguard, hfind']

theorem member_lookup_idempotent_witness :
    memberLookup [] "0987" (some "Amy") =
      .ok ([{ phone := "0987", name := "Amy", points := 0 }],
           { phone := "0987", name := "Amy", points := 0 }) :=
  (member_lookup_idempotent [] "0987" (some "Amy") none (by decide)).1 rfl

/-- C7: the stored ticketNo of every successfully created order is non-null
exactly when the request mode is takeout, it is built from the clock and a
random draw only (the same clock and draw give the same ticket for any
Date.now value and hence for any order id), and the part_003 revision draws
it from the count of stored takeout orders; no path derives it from the
order id. -/
theorem ticket_number_takeout_iff (members0 : List Member)
    (orders0 : List Order) (req : OrderReq) (tHour tMin rand : Nat)
    (createdAt : String) (nowMs : Nat) (r : OrderResult)
    (hok : processOrder members0 orders0 req tHour tMin rand createdAt nowMs = .ok r) :
    r.order.ticketNo =
      (if req.mode = some "takeout" then some (generateTicketNo tHour tMin rand)
       else none) ∧
    (r.order.ticketNo.isSome ↔ req.mode = some "takeout") ∧
    (∀ nowMs2 r2,
      processOrder members0 orders0 req tHour tMin rand createdAt nowMs2 = .ok r2 →
      r2.order.ticketNo = r.order.ticketNo) ∧
    (∀ (menu : List MenuItem) (orders3 : List Part003.Order3)
       (req3 : Part003.OrderReq3) (y mo d nw3 : Nat) (ca3 : String)
       (res3 : List Part003.Order3 × Part003.Order3 × Part003.OrderResp3),
      Part003.createOrder3 menu orders3 req3 y mo d nw3 ca3 = .ok res3 →
      res3.2.1.ticketNo =
        (if req3.mode = some "takeout"
         then some (((orders3.filter (fun o => o.mode == "takeout")).length : Int) + 1)
         else none)) := by
  obtain ⟨-, rfl⟩ := processOrder_ok_elim hok
  refine ⟨rfl, ?_, ?_, ?_⟩
  · simp only [buildOrderResult]
    by_cases hm : req.mode = some "takeout" <;> simp [hm]
  · intro nowMs2 r2 hok2
    obtain ⟨-, rfl⟩ := processOrder_ok_elim hok2
    rfl
  · intro menu orders3 req3 y mo d nw3 ca3 res3 hok3
    unfold Part003.createOrder3 at hok3
    by_cases h1 : (!(strTruthy req3.mode) || req3.items.isEmpty)
    · rw [if_pos h1] at hok3
      exact absurd hok3 (by simp)
    · rw [if_neg h1] at hok3
      simp only [Bool.or_eq_true, Bool.not_eq_true', not_or,
        Bool.not_eq_true] at h1
      obtain ⟨htr, -⟩ := h1
      cases hmo : req3.mode with
      | none => rw [hmo] at htr; simp [strTruthy] at htr
      | some m =>
          rw [hmo] at hok3
          by_cases h2 : ((some m : Option String).getD "" ≠ "dinein" ∧
              (some m : Option String).getD "" ≠ "takeout")
          · rw [if_pos h2] at hok3
            exact absurd hok3 (by simp)
          · rw [if_neg h2] at hok3
            by_cases h3 : Part003.serverCalcTotal menu req3.items ≤ 0
            · rw [if_pos h3] at hok3
              exact absurd hok3 (by simp)
            · rw [if_neg h3] at hok3
              simp only [Except.ok.injEq] at hok3
              subst hok3
              by_cases hmt : m = "takeout" <;>
                simp [hmt, Option.getD]

/-- Concrete instantiation for ticket_number_takeout_iff: a takeout order. -/
def c7res : OrderResult := buildOrderResult [] [] c2req 12 30 45 "t" 99

theorem ticket_number_takeout_iff_witness :
    c7res.order.ticketNo =
      (if c2req.mode = some "takeout" then some (generateTicketNo 12 30 45)
       else none) :=
  (ticket_number_takeout_iff [] [] c2req 12 30 45 "t" 99 c7res rfl).1

/-- C8: starting from a members store whose balances are all non-negative
and an order request with a non-negative total, both member lookup and
order creation (with or without redemption) leave every stored balance
non-negative. -/
theorem points_nonneg_invariant (members0 : List Member)
    (orders0 : List Order) (req : OrderReq) (tHour tMin rand : Nat)
    (createdAt : String) (nowMs : Nat) (phone : String) (nm : Option String)
    (hms : ∀ m ∈ members0, 0 ≤ m.points) (_htot : 0 ≤ req.totalAmount) :
    (∀ r, processOrder members0 orders0 req tHour tMin rand createdAt nowMs = .ok r →
      ∀ m ∈ r.members, 0 ≤ m.points) ∧
    (∀ ms' m, memberLookup members0 phone nm = .ok (ms', m) →
      ∀ x ∈ ms', 0 ≤ x.points) := by
  constructor
  · intro r hok m hm
    obtain ⟨-, rfl⟩ := processOrder_ok_elim hok
    simp only [buildOrderResult] at hm
    cases hmp : req.memberPhone with
    | none =>
        rw [hmp, handleMember_not_truthy _ _ _ _ (by simp [strTruthy])] at hm
        exact hms m hm
    | some p =>
        by_cases hpe : p = ""
        · rw [hmp, handleMember_not_truthy _ _ _ _ (by simp [strTruthy, hpe])] at hm
          exact hms m hm
        · have hafter : ∀ m0 : Member, 0 ≤ m0.points →
              0 ≤ (settleMember m0 req.totalAmount req.usePoints).memberAfter.points := by
            intro m0 h0
            rw [settleMember_afterPoints]
            refine add_nonneg ?_ (settleMember_earnedPoints m0 _ _ ▸
              earnedPointsOf_nonneg _)
            by_cases hu : 0 < (settleMember m0 req.totalAmount req.usePoints).usedPoints
            · rw [if_pos hu]
              have hle : (settleMember m0 req.totalAmount req.usePoints).usedPoints ≤
                  m0.points := by
                rw [settleMember_usedPoints]
                exact le_trans (min_le_right _ _) (min_le_left _ _)
              omega
            · rw [if_neg hu]; exact h0
          cases hfm : findMember members0 p with
          | some m0 =>
              rw [hmp, handleMember_found _ _ _ _ hpe _ hfm] at hm
              rcases mem_setFirstMember hm with rfl | hmem
              · exact hafter m0 (hms m0 (mem_of_findMember hfm))
              · exact hms m hmem
          | none =>
              rw [hmp, handleMember_new _ _ _ _ hpe hfm] at hm
              rcases List.mem_append.mp hm with hmem | hmem
              · exact hms m hmem
              · rcases List.mem_singleton.mp hmem with rfl
                exact hafter _ (by simp)
  · intro ms' m hok x hx
    unfold memberLookup at hok
    by_cases hpe : (phone == "")
    · rw [if_pos hpe] at hok
      exact absurd hok (by simp)
    · rw [if_neg hpe] at hok
      cases hfm : findMember members0 phone with
      | some m0 =>
          rw [hfm] at hok
          simp only [Except.ok.injEq, Prod.mk.injEq] at hok
          obtain ⟨rfl, -⟩ := hok
          exact hms x hx
      | none =>
          rw [hfm] at hok
          simp only [Except.ok.injEq, Prod.mk.injEq] at hok
          obtain ⟨rfl, -⟩ := hok
          rcases List.mem_append.mp hx with hmem | hmem
          · exact hms x hmem
          · rcases List.mem_singleton.mp hmem with rfl
            simp

theorem points_nonneg_invariant_witness :
    0 ≤ ({ phone := "0912", name := "", points := 2 } : Member).points :=
  (points_nonneg_invariant [mem0912] [] c2req 12 30 45 "t" 99 "0912" none
    (by decide) (by decide)).1
    (buildOrderResult [mem0912] [] c2req 12 30 45 "t" 99) rfl
    { phone := "0912", name := "", points := 2 } (by decide)

/-- Request refuting C1 as stated: the client claims a total of 999 while
the catalog prices its single line item at 150. -/
def c1req : OrderReq :=
  { items := [{ itemId := 1, name := "牛肉麵", basePrice := 150,
                extraPricePerUnit := 0, qty := 1, removeKeys := [], addKeys := [] }]
    totalAmount := 999, mode := some "dinein", table := some "1",
    memberPhone := none, usePoints := 0, via := none, paymentMethod := none,
    cashReceived := 0 }

/-- C1 counterexample: the primary server.js order handler records the
client-submitted totalAmount (999) as the order total, not the catalog
price sum (150), so the total is not recomputed server side there. -/
theorem order_total_trusts_client_counterexample :
    ((processOrder [] [] c1req 10 0 50 "t" 1).map
      (fun r => r.order.totalAmount)) = .ok 999 ∧
    specCatalogTotal Part003.menuData c1req.items = 150 ∧
    (999 : Int) ≠ 150 := by
  refine ⟨rfl, rfl, by decide⟩

/-- C1 amended: only the part_003 revision recomputes the order total
server side (as the catalog price plus per-unit extra, times quantity,
summed over catalog-known items), and its result is independent of the
client-submitted totalAmount; the primary server.js handler records the
client-submitted totalAmount as the order total. -/
theorem order_total_recomputation_amended (menu : List MenuItem)
    (orders3 : List Part003.Order3) (req3 : Part003.OrderReq3)
    (y mo d nw3 : Nat) (ca3 : String)
    (res3 : List Part003.Order3 × Part003.Order3 × Part003.OrderResp3)
    (t : Int)
    (hok3 : Part003.createOrder3 menu orders3 req3 y mo d nw3 ca3 = .ok res3) :
    res3.2.1.totalAmount = Part003.serverCalcTotal menu req3.items ∧
    Part003.createOrder3 menu orders3 { req3 with totalAmount := t } y mo d nw3 ca3 =
      Part003.createOrder3 menu orders3 req3 y mo d nw3 ca3 ∧
    (∀ (members0 : List Member) (orders0 : List Order) (req : OrderReq)
       (tHour tMin rand : Nat) (createdAt : String) (nowMs : Nat)
       (r : OrderResult),
      processOrder members0 orders0 req tHour tMin rand createdAt nowMs = .ok r →
      r.order.totalAmount = req.totalAmount) := by
  refine ⟨?_, ?_, ?_⟩
  · unfold Part003.createOrder3 at hok3
    by_cases h1 : (!(strTruthy req3.mode) || req3.items.isEmpty)
    · rw [if_pos h1] at hok3
      exact absurd hok3 (by simp)
    · rw [if_neg h1] at hok3
      by_cases h2 : (req3.mode.getD "" ≠ "dinein" ∧ req3.mode.getD "" ≠ "takeout")
      · rw [if_pos h2] at hok3
        exact absurd hok3 (by simp)
      · rw [if_neg h2] at hok3
        by_cases h3 : Part003.serverCalcTotal menu req3.items ≤ 0
        · rw [if_pos h3] at hok3
          exact absurd hok3 (by simp)
        · rw [if_neg h3] at hok3
          simp only [Except.ok.injEq] at hok3
          subst hok3
          rfl
  · cases req3
    rfl
  · intro members0 orders0 req tHour tMin rand createdAt nowMs r hok
    obtain ⟨-, rfl⟩ := processOrder_ok_elim hok
    rfl

/-- Concrete instantiation for the amended C1: a takeout order priced from
the catalog with an extra of 10 per unit, whatever totalAmount says. -/
def c1req3 : Part003.OrderReq3 :=
  { mode := some "takeout", table := none,
    items := [{ itemId := 1, name := "牛肉麵", basePrice := 0,
                extraPricePerUnit := 10, qty := 2, removeKeys := [], addKeys := [] }]
    totalAmount := 7 }

/-- Result of the concrete part_003 order of c1req3. -/
def c1res3 : List Part003.Order3 × Part003.Order3 × Part003.OrderResp3 :=
  (Part003.createOrder3 Part003.menuData [] c1req3 2024 5 1 1716000000123 "t").toOption.getD default

theorem order_total_recomputation_amended_witness :
    c1res3.2.1.totalAmount = Part003.serverCalcTotal Part003.menuData c1req3.items :=
  (order_total_recomputation_amended Part003.menuData [] c1req3 2024 5 1
    1716000000123 "t" c1res3 42 rfl).1

/-- Member holding 10 points used by the C4 counterexample. -/
def c4member : Member := { phone := "0912", name := "", points := 10 }

/-- Order request refuting C4 as stated: a negative usePoints of -5 makes
the computed usedPoints negative, so the redemption step is skipped. -/
def c4req : OrderReq :=
  { items := [{ itemId := 1, name := "牛肉麵", basePrice := 150,
                extraPricePerUnit := 0, qty := 1, removeKeys := [], addKeys := [] }]
    totalAmount := 100, mode := some "dinein", table := some "1",
    memberPhone := some "0912", usePoints := -5, via := none,
    paymentMethod := none, cashReceived := 0 }

/-- C4 counterexample: with usePoints -5 on a 100-dollar order and a
balance of 10, the handler records usedPoints = -5 but skips the redemption
(the final total stays 100, not 100 - (-5) * POINT_VALUE = 105) and credits
10 + 1 = 11 points, not 10 - (-5) + 1 = 16. -/
theorem settlement_negative_use_counterexample :
    ((processOrder [c4member] [] c4req 10 0 50 "t" 1).map
      (fun r => (r.order.usedPoints, r.order.totalAmount, r.order.finalTotal,
                 r.resp.member.map (fun mr => (mr.beforePoints, mr.earnedPoints,
                   mr.afterPoints))))) =
      .ok (-5, 100, 100, some (10, 1, 11)) ∧
    ¬ ((100 : Int) = 100 - (-5) * POINT_VALUE) ∧
    ¬ ((11 : Int) = 10 - (-5) + 1) := by
  refine ⟨rfl, by decide, by decide⟩

/-- C4 amended: for every order placed with a memberPhone, provided the
computed usedPoints is non-negative (which holds whenever the requested
usePoints and the order total are non-negative), the final total equals the
original total minus usedPoints times POINT_VALUE and the stored balance
after the order equals beforePoints minus usedPoints plus earnedPoints,
which is the afterPoints value returned in the response; when the computed
usedPoints is negative the redemption step is skipped instead. -/
theorem member_settlement_amended (members0 : List Member)
    (orders0 : List Order) (req : OrderReq) (tHour tMin rand : Nat)
    (createdAt : String) (nowMs : Nat) (r : OrderResult) (p : String)
    (mr : MemberResp)
    (hp : req.memberPhone = some p) (hpne : p ≠ "")
    (hok : processOrder members0 orders0 req tHour tMin rand createdAt nowMs = .ok r)
    (hmr : r.resp.member = some mr)
    (hused : 0 ≤ r.order.usedPoints) :
    r.order.finalTotal = r.order.totalAmount - r.order.usedPoints * POINT_VALUE ∧
    mr.afterPoints = mr.beforePoints - mr.usedPoints + mr.earnedPoints ∧
    (findMember r.members p).map Member.points = some mr.afterPoints := by
  obtain ⟨-, rfl⟩ := processOrder_ok_elim hok
  simp only [buildOrderResult, hp] at hmr hused ⊢
  cases hfm : findMember members0 p with
  | some m0 =>
      rw [handleMember_found _ _ _ _ hpne _ hfm] at hmr hused ⊢
      simp only [Option.some.injEq] at hmr
      subst hmr
      refine ⟨?_, ?_, ?_⟩
      · rw [settleMember_finalTotal]
        by_cases hu : 0 < (settleMember m0 req.totalAmount req.usePoints).usedPoints
        · rw [if_pos hu]
        · rw [if_neg hu]
          have h0 : (settleMember m0 req.totalAmount req.usePoints).usedPoints = 0 :=
            le_antisymm (not_lt.mp hu) hused
          rw [h0, zero_mul, sub_zero]
      · show (settleMember m0 req.totalAmount req.usePoints).memberAfter.points =
          (settleMember m0 req.totalAmount req.usePoints).beforePoints -
            (settleMember m0 req.totalAmount req.usePoints).usedPoints +
            (settleMember m0 req.totalAmount req.usePoints).earnedPoints
        rw [settleMember_afterPoints, settleMember_beforePoints]
        by_cases hu : 0 < (settleMember m0 req.totalAmount req.usePoints).usedPoints
        · rw [if_pos hu]
        · rw [if_neg hu]
          have h0 : (settleMember m0 req.totalAmount req.usePoints).usedPoints = 0 :=
            le_antisymm (not_lt.mp hu) hused
          rw [h0]
          omega
      · have hphone : (settleMember m0 req.totalAmount req.usePoints).memberAfter.phone = p :=
          (settleMember_afterPhone _ _ _).trans (findMember_phone hfm)
        rw [findMember_setFirstMember _ hfm hphone]
        rfl
  | none =>
      rw [handleMember_new _ _ _ _ hpne hfm] at hmr hused ⊢
      simp only [Option.some.injEq] at hmr
      subst hmr
      refine ⟨?_, ?_, ?_⟩
      · rw [settleMember_finalTotal]
        by_cases hu : 0 <
            (settleMember { phone := p, name := "", points := 0 } req.totalAmount req.usePoints).usedPoints
        · rw [if_pos hu]
        · rw [if_neg hu]
          have h0 : (settleMember { phone := p, name := "", points := 0 } req.totalAmount req.usePoints).usedPoints = 0 :=
            le_antisymm (not_lt.mp hu) hused
          rw [h0, zero_mul, sub_zero]
      · show (settleMember { phone := p, name := "", points := 0 } req.totalAmount req.usePoints).memberAfter.points =
          (settleMember { phone := p, name := "", points := 0 } req.totalAmount req.usePoints).beforePoints -
            (settleMember { phone := p, name := "", points := 0 } req.totalAmount req.usePoints).usedPoints +
            (settleMember { phone := p, name := "", points := 0 } req.totalAmount req.usePoints).earnedPoints
        rw [settleMember_afterPoints, settleMember_beforePoints]
        by_cases hu : 0 <
            (settleMember { phone := p, name := "", points := 0 } req.totalAmount req.usePoints).usedPoints
        · rw [if_pos hu]
        · rw [if_neg hu]
          have h0 : (settleMember { phone := p, name := "", points := 0 } req.totalAmount req.usePoints).usedPoints = 0 :=
            le_antisymm (not_lt.mp hu) hused
          rw [h0]
          omega
      · have hphone : (settleMember { phone := p, name := "", points := 0 } req.totalAmount req.usePoints).memberAfter.phone = p :=
          settleMember_afterPhone _ _ _
        rw [findMember_append_new _ hfm hphone]
        rfl

/-- Order request for the amended C4 instantiation: redeem 5 points from a
balance of 10 on a 100-dollar order. -/
def c4wreq : OrderReq :=
  { items := [{ itemId := 1, name := "牛肉麵", basePrice := 150,
                extraPricePerUnit := 0, qty := 1, removeKeys := [], addKeys := [] }]
    totalAmount := 100, mode := some "dinein", table := some "1",
    memberPhone := some "0912", usePoints := 5, via := none,
    paymentMethod := none, cashReceived := 0 }

/-- Result of the concrete member order of c4wreq. -/
def c4wres : OrderResult := buildOrderResult [c4member] [] c4wreq 10 0 50 "t" 1

theorem member_settlement_amended_witness :
    c4wres.order.finalTotal =
      c4wres.order.totalAmount - c4wres.order.usedPoints * POINT_VALUE :=
  (member_settlement_amended [c4member] [] c4wreq 10 0 50 "t" 1 c4wres "0912"
    { phone := "0912", beforePoints := 10, usedPoints := 5, earnedPoints := 0,
      afterPoints := 5 }
    rfl (by decide) rfl rfl (by decide)).1

/-- Stored part_003 order used by the C5 counterexample. -/
def c5order3 : Part003.Order3 :=
  { orderId := "ORD1", ticketNo := none, mode := "dinein", table := some "",
    items := [], totalAmount := 100, status := "PENDING_PAYMENT",
    createdAt := "t", updatedAt := none }

/-- C5 counterexample: the part_003 PATCH handler stores the status
CANCELLED, which is outside the {PENDING_PAYMENT, PAID, COOKING, READY,
DONE} enum, because that revision validates only that a status was sent. -/
theorem status_enum_unvalidated_counterexample :
    ((Part003.patchStatus3 [c5order3] "ORD1" (some "CANCELLED") "u").map
      (fun x => x.2.status)) = .ok "CANCELLED" ∧
    "CANCELLED" ∉ VALID_STATUS := by
  refine ⟨rfl, by decide⟩

/-- C5 amended: every created order starts with a status in the enum
(PENDING_PAYMENT, or PAID on the cashier path), and the primary server.js
PATCH handler rejects an absent or out-of-enum status with HTTP 400 leaving
the store untouched and preserves the enum invariant on success; the
part_003 revision's PATCH handler however rejects only an absent status, so
out-of-enum statuses can be stored there. -/
theorem order_status_enum_amended (members0 : List Member)
    (orders0 : List Order) (req : OrderReq) (tHour tMin rand : Nat)
    (createdAt : String) (nowMs : Nat) (r : OrderResult)
    (orders2 : List Order) (oid s : String)
    (hok : processOrder members0 orders0 req tHour tMin rand createdAt nowMs = .ok r)
    (hs : s ∉ VALID_STATUS) :
    (r.order.status = "PENDING_PAYMENT" ∨ r.order.status = "PAID") ∧
    r.order.status ∈ VALID_STATUS ∧
    (∃ e, patchStatus orders2 oid (some s) = .error e) ∧
    (∃ e, patchStatus orders2 oid none = .error e) ∧
    (∀ st orders' o', patchStatus orders2 oid st = .ok (orders', o') →
      (∀ o ∈ orders2, o.status ∈ VALID_STATUS) →
      ∀ o ∈ orders', o.status ∈ VALID_STATUS) := by
  have hinit : r.order.status = "PENDING_PAYMENT" ∨ r.order.status = "PAID" := by
    obtain ⟨-, rfl⟩ := processOrder_ok_elim hok
    show initialStatusOf req.via req.paymentMethod = "PENDING_PAYMENT" ∨
      initialStatusOf req.via req.paymentMethod = "PAID"
    unfold initialStatusOf
    by_cases h : (req.via = some "CASHIER" ∧
        (req.paymentMethod = some "CASH" ∨ req.paymentMethod = some "CARD" ∨
          req.paymentMethod = some "LINEPAY"))
    · rw [if_pos h]; exact Or.inr rfl
    · rw [if_neg h]; exact Or.inl rfl
  refine ⟨hinit, ?_, ?_, ⟨"必須提供新的狀態", rfl⟩, ?_⟩
  · rcases hinit with h | h <;> rw [h] <;> decide
  · by_cases hse : s = ""
    · exact ⟨"必須提供新的狀態", by simp [patchStatus, strTruthy, hse]⟩
    · exact ⟨"無效的訂單狀態", by simp [patchStatus, strTruthy, hse, hs]⟩
  · intro st orders' o' hpk hinv o ho
    cases st with
    | none => simp [patchStatus, strTruthy] at hpk
    | some s' =>
        by_cases hse : s' = ""
        · simp [patchStatus, strTruthy, hse] at hpk
        · by_cases hsv : s' ∈ VALID_STATUS
          · rw [show patchStatus orders2 oid (some s') =
                (match orders2.find? (fun x => x.orderId == oid) with
                 | none => .error "找不到此訂單"
                 | some o0 => .ok (setOrderStatus orders2 oid s', { o0 with status := s' }))
                from by simp [patchStatus, strTruthy, hse, hsv]] at hpk
            cases hf : orders2.find? (fun x => x.orderId == oid) with
            | none => rw [hf] at hpk; exact absurd hpk (by simp)
            | some o0 =>
                rw [hf] at hpk
                simp only [Except.ok.injEq, Prod.mk.injEq] at hpk
                obtain ⟨rfl, -⟩ := hpk
                rcases mem_setOrderStatus ho with hst | hmem
                · rw [hst]; exact hsv
                · exact hinv o hmem
          · simp [patchStatus, strTruthy, hse, hsv] at hpk

theorem order_status_enum_amended_witness :
    (buildOrderResult [] [] c2req 1 2 3 "t" 4).order.status ∈ VALID_STATUS :=
  (order_status_enum_amended [] [] c2req 1 2 3 "t" 4
    (buildOrderResult [] [] c2req 1 2 3 "t" 4) [] "O1" "CANCELLED" rfl
    (by decide)).2.1

end OrderServer
